import Mathlib

/-!
Verification of the DQA Dashboard workflow automation and notification
engine against its natural-language specification.

The definitions below are a shallow embedding of the TypeScript source:
the data model from src/types.ts, the reconciliation effects and handlers
from the App component, the TaskBoard status handlers, the EscalationModal
close control, and the InvoiceManager transition controls.  JavaScript
falsiness on optional strings is modelled explicitly (absent or empty);
Date.now() is passed in as an explicit `now : Nat` parameter; the textual
rendering Date.toISOString of a timestamp is modelled by an abstract
injective stand-in since no claim depends on the text format.
-/

namespace DQA

/-- UserRole enum from src/types.ts. -/
inductive UserRole where
  | MANAGER
  | AGENT
deriving DecidableEq, Repr

/-- User record from src/types.ts (fields used by the engine; the optional
profile fields such as email, phone and schedule are carried nowhere in the
embedded logic and are omitted). -/
structure User where
  id : String
  username : String
  name : String
  role : UserRole
deriving DecidableEq, Repr

/-- TaskStatus enum from src/types.ts. -/
inductive TaskStatus where
  | TODO
  | IN_PROGRESS
  | ON_HOLD
  | DONE
deriving DecidableEq, Repr

/-- TaskPriority enum from src/types.ts. -/
inductive TaskPriority where
  | LOW
  | MEDIUM
  | HIGH
  | CRITICAL
deriving DecidableEq, Repr

/-- TaskType enum from src/types.ts. -/
inductive TaskType where
  | AUGMENTING
  | QA
  | CHECK_404
  | INVOICE_PROCESSING
  | DATA_REFRESHER
deriving DecidableEq, Repr

/-- TaskNote record from src/types.ts. -/
structure TaskNote where
  id : String
  authorId : String
  authorName : String
  text : String
  timestamp : Nat
deriving DecidableEq, Repr

/-- Attachment type union from src/types.ts. -/
inductive AttachmentType where
  | pdf
  | csv
  | img
  | doc
deriving DecidableEq, Repr

/-- TaskAttachment record from src/types.ts. -/
structure TaskAttachment where
  name : String
  url : Option String
  atype : AttachmentType
deriving DecidableEq, Repr

/-- Task record from src/types.ts.  Optional fields are `Option`; the
optional list fields notes, attachments and tags default to empty lists,
matching how the code reads them with a fallback. -/
structure Task where
  id : String
  title : String
  description : String
  assigneeId : String
  status : TaskStatus
  priority : TaskPriority
  type : TaskType
  tags : List String
  dueDate : String
  createdAt : Nat
  completedAt : Option Nat
  notes : List TaskNote
  attachments : List TaskAttachment
  isEscalated : Option Bool
  inventoryFileId : Option String
  inventoryItemIds : Option (List String)
deriving DecidableEq, Repr

/-- EscalationMessage record from src/types.ts. -/
structure EscalationMessage where
  id : String
  authorId : String
  authorName : String
  role : UserRole
  text : String
  timestamp : Nat
deriving DecidableEq, Repr

/-- Escalation status union from src/types.ts. -/
inductive EscStatus where
  | PENDING
  | RESPONDED
  | CLOSED
deriving DecidableEq, Repr

/-- Escalation record from src/types.ts. -/
structure Escalation where
  id : String
  taskId : String
  taskTitle : String
  agentId : String
  agentName : String
  link : Option String
  history : List EscalationMessage
  status : EscStatus
  createdAt : Nat
  updatedAt : Nat
deriving DecidableEq, Repr

/-- InventoryStatus enum from src/types.ts. -/
inductive InventoryStatus where
  | PENDING
  | ASSIGNED_AUGMENTATION
  | AUGMENTED
  | ASSIGNED_QA
  | QA_COMPLETE
deriving DecidableEq, Repr

/-- InventoryItem record from src/types.ts (workflow fields; the raw CSV
display columns such as model, mfr and studio are never read by the
embedded logic and are kept as plain strings). -/
structure InventoryItem where
  id : String
  productId : String
  productName : String
  model : String
  mfr : String
  studio : String
  status : InventoryStatus
  assigneeId : Option String
deriving DecidableEq, Repr

/-- InventoryFile record from src/types.ts. -/
structure InventoryFile where
  id : String
  fileName : String
  uploadDate : Nat
  rowCount : Nat
  data : List InventoryItem
deriving DecidableEq, Repr

/-- InvoiceFileMeta record from src/types.ts. -/
structure InvoiceFileMeta where
  name : String
  size : String
  ftype : AttachmentType
  content : Option String
deriving DecidableEq, Repr

/-- Invoice status union from src/types.ts. -/
inductive InvStatus where
  | PENDING
  | ASSIGNED
  | COMPLETED
  | UPLOADED
deriving DecidableEq, Repr

/-- Invoice record from src/types.ts. -/
structure Invoice where
  id : String
  referenceName : String
  status : InvStatus
  pdfFile : InvoiceFileMeta
  csvFile : Option InvoiceFileMeta
  finalCsvFile : Option InvoiceFileMeta
  assigneeId : Option String
  assigneeName : Option String
  startDate : Option String
  dueDate : Option String
  isPreProcessed : Bool
  createdAt : Nat
  completedAt : Option Nat
deriving DecidableEq, Repr

/-- One notification emission: the (title, message) pair passed to
addNotification in the App component.  The surrounding Notification object
additionally carries a random id and a timestamp, neither of which any
claim depends on. -/
structure Emitted where
  title : String
  message : String
deriving DecidableEq, Repr

/-- A command issued to the storage collaborator (src/services/storageService.ts);
all of these are idempotent upserts or deletes keyed by entity id. -/
inductive Command where
  | addTask (t : Task)
  | updateTask (t : Task)
  | deleteTask (id : String)
  | saveInvoice (inv : Invoice)
  | deleteInvoice (id : String)
  | saveEscalation (esc : Escalation)
deriving DecidableEq, Repr

/-- JavaScript falsiness of an optional string: absent or empty. -/
def strFalsy : Option String → Bool
  | none => true
  | some s => s = ""

/-- JavaScript `a || b` on an optional string against a string default,
as used in `updatedInvoice.assigneeId || linkedTask.assigneeId`. -/
def strOr (o : Option String) (d : String) : String :=
  match o with
  | none => d
  | some s => if s = "" then d else s

-- ------------------------------------------------------------------
-- Rule 1: automated task completion (App component, second useEffect)
-- ------------------------------------------------------------------

/-- The completion predicate of the auto-complete rule: body of the
`every` callback inside the automated task completion useEffect. -/
def itemComplete (tt : TaskType) (item : InventoryItem) : Bool :=
  if tt = TaskType.QA then
    item.status = InventoryStatus.QA_COMPLETE
  else
    item.status = InventoryStatus.AUGMENTED || item.status = InventoryStatus.QA_COMPLETE

/-- The some-check of the automated task completion useEffect: whether any
escalation references the task with a status other than CLOSED. -/
def hasActiveEscalation (escalations : List Escalation) (taskId : String) : Bool :=
  escalations.any fun e => decide (e.taskId = taskId) && decide (e.status ≠ EscStatus.CLOSED)

/-- The per-task body of the automated task completion useEffect in the App
component: returns the updated task passed to storageService.updateTask when
the task auto-completes, and `none` when any early return fires. -/
def autoCompleteStep (inventories : List InventoryFile) (escalations : List Escalation)
    (now : Nat) (task : Task) : Option Task :=
  if task.status = TaskStatus.DONE then none
  else if strFalsy task.inventoryFileId then none
  else
    match task.inventoryFileId, task.inventoryItemIds with
    | some fid, some ids =>
      if ids.length = 0 then none
      else if hasActiveEscalation escalations task.id then none
      else
        match inventories.find? (fun inv => decide (inv.id = fid)) with
        | none => none
        | some inventory =>
          let relevantItems := inventory.data.filter (fun item => ids.contains item.id)
          if relevantItems.length = 0 then none
          else if relevantItems.all (fun item => itemComplete task.type item) then
            some { task with status := TaskStatus.DONE, completedAt := some now }
          else none
    | _, _ => none

/-- The list of updateTask commands issued by one run of the automated task
completion useEffect, including its outer emptiness guard. -/
def autoCompleteCommands (tasks : List Task) (inventories : List InventoryFile)
    (escalations : List Escalation) (now : Nat) : List Task :=
  if tasks.length = 0 ∨ inventories.length = 0 then []
  else tasks.filterMap (autoCompleteStep inventories escalations now)

/-- The task collection after the storage collaborator applies the upserts
issued by one run of the automated task completion useEffect. -/
def autoCompleteApply (tasks : List Task) (inventories : List InventoryFile)
    (escalations : List Escalation) (now : Nat) : List Task :=
  if tasks.length = 0 ∨ inventories.length = 0 then tasks
  else tasks.map (fun t => (autoCompleteStep inventories escalations now t).getD t)

-- ------------------------------------------------------------------
-- Notification and change detection (App component, first useEffect)
-- ------------------------------------------------------------------

/-- The raw enum string of a TaskStatus, as interpolated into note text. -/
def taskStatusRaw : TaskStatus → String
  | TaskStatus.TODO => "TODO"
  | TaskStatus.IN_PROGRESS => "IN_PROGRESS"
  | TaskStatus.ON_HOLD => "ON_HOLD"
  | TaskStatus.DONE => "DONE"

/-- `newTask.status.replace(underscore, space)` as used in the status-change
notification message (JavaScript replace substitutes the first occurrence). -/
def taskStatusText : TaskStatus → String
  | TaskStatus.TODO => "TODO"
  | TaskStatus.IN_PROGRESS => "IN PROGRESS"
  | TaskStatus.ON_HOLD => "ON HOLD"
  | TaskStatus.DONE => "DONE"

/-- The raw enum string of an Invoice status, as interpolated into messages. -/
def invStatusText : InvStatus → String
  | InvStatus.PENDING => "PENDING"
  | InvStatus.ASSIGNED => "ASSIGNED"
  | InvStatus.COMPLETED => "COMPLETED"
  | InvStatus.UPLOADED => "UPLOADED"

/-- The raw enum string of an Escalation status, as interpolated into messages. -/
def escStatusText : EscStatus → String
  | EscStatus.PENDING => "PENDING"
  | EscStatus.RESPONDED => "RESPONDED"
  | EscStatus.CLOSED => "CLOSED"

/-- JavaScript template interpolation of a possibly-undefined string, which
renders the literal text undefined when the value is absent. -/
def jsShow : Option String → String
  | some s => s
  | none => "undefined"

/-- The assignee name lookup of the new-task notification message, with the
JavaScript falsy fallback to the word someone. -/
def assigneeDisplay (users : List User) (assigneeId : String) : String :=
  match users.find? (fun u => decide (u.id = assigneeId)) with
  | some u => if u.name = "" then "someone" else u.name
  | none => "someone"

/-- Per-task branch of the notification useEffect: notifications emitted to
the current viewer for one task of the fresh collection. -/
def taskNotifs (users : List User) (viewer : User) (prevTasks : List Task)
    (t : Task) : List Emitted :=
  match prevTasks.find? (fun x => decide (x.id = t.id)) with
  | none =>
    if decide (t.assigneeId = viewer.id) || decide (viewer.role = UserRole.MANAGER) then
      [⟨"New Task Assigned",
        "Task \"" ++ t.title ++ "\" assigned to " ++ assigneeDisplay users t.assigneeId ++ "."⟩]
    else []
  | some old =>
    if old.status ≠ t.status then
      if decide (t.assigneeId = viewer.id) || decide (viewer.role = UserRole.MANAGER) then
        [⟨if t.status = TaskStatus.DONE then "Task Completed" else "Task Updated",
          "\"" ++ t.title ++ "\" moved to " ++ taskStatusText t.status ++ "."⟩]
      else []
    else []

/-- Per-invoice branch of the notification useEffect: notifications emitted
to the current viewer and messages forwarded to the Alert Channel
(sendToSlack) for one invoice of the fresh collection. -/
def invoiceNotifs (viewer : User) (prevInvoices : List Invoice)
    (inv : Invoice) : List Emitted × List String :=
  match prevInvoices.find? (fun x => decide (x.id = inv.id)) with
  | none =>
    (if decide (inv.assigneeId = some viewer.id) || decide (viewer.role = UserRole.MANAGER) then
       [⟨"New Invoice Slot", "Invoice \"" ++ inv.referenceName ++ "\" created."⟩]
     else [], [])
  | some old =>
    let completedPart : List Emitted × List String :=
      if old.status ≠ InvStatus.COMPLETED ∧ inv.status = InvStatus.COMPLETED then
        if viewer.role = UserRole.MANAGER then
          let msg := "✅ Invoice Completed: \"" ++ inv.referenceName ++ "\" by "
            ++ jsShow inv.assigneeName ++ ". Ready for upload."
          ([⟨"Invoice Ready", msg⟩], [msg])
        else ([], [])
      else ([], [])
    let otherPart : List Emitted :=
      if old.status ≠ inv.status ∧ inv.status ≠ InvStatus.COMPLETED then
        if decide (inv.assigneeId = some viewer.id) || decide (viewer.role = UserRole.MANAGER) then
          [⟨"Invoice Status", "\"" ++ inv.referenceName ++ "\" is now " ++ invStatusText inv.status ++ "."⟩]
        else []
      else []
    (completedPart.1 ++ otherPart, completedPart.2)

/-- Per-escalation branch of the notification useEffect: notifications
emitted to the current viewer and messages forwarded to the Alert Channel
for one escalation of the fresh collection.  The final branch reads the
last element of the history; it is reachable only when the history grew, so
the history is non-empty there. -/
def escalationNotifs (viewer : User) (prevEscs : List Escalation)
    (e : Escalation) : List Emitted × List String :=
  match prevEscs.find? (fun x => decide (x.id = e.id)) with
  | none =>
    if viewer.role = UserRole.MANAGER ∨ e.agentId = viewer.id then
      let msg := "🚨 Escalation Raised: \"" ++ e.taskTitle ++ "\" by " ++ e.agentName ++ "."
      ([⟨"Escalation Raised", msg⟩],
       if viewer.role ≠ UserRole.MANAGER then [msg] else [])
    else ([], [])
  | some old =>
    if old.status ≠ e.status then
      (if viewer.role = UserRole.MANAGER ∨ e.agentId = viewer.id then
         [⟨"Escalation Update", "Escalation for \"" ++ e.taskTitle ++ "\" is " ++ escStatusText e.status ++ "."⟩]
       else [], [])
    else if old.history.length < e.history.length then
      match e.history.getLast? with
      | some lastMsg =>
        (if lastMsg.authorId ≠ viewer.id then
           [⟨"New Message", "New reply in escalation for \"" ++ e.taskTitle ++ "\"."⟩]
         else [], [])
      | none => ([], [])
    else ([], [])

/-- One run of the notification useEffect body past the first-load guard:
the notifications emitted to the current viewer and the messages forwarded
to the Alert Channel, over the three fresh collections against the
previous-snapshot refs. -/
def notifPass (users : List User) (viewer : User)
    (prevTasks : List Task) (prevInvoices : List Invoice) (prevEscs : List Escalation)
    (tasks : List Task) (invoices : List Invoice) (escalations : List Escalation) :
    List Emitted × List String :=
  let taskEm := tasks.flatMap (taskNotifs users viewer prevTasks)
  let invParts := invoices.map (invoiceNotifs viewer prevInvoices)
  let escParts := escalations.map (escalationNotifs viewer prevEscs)
  (taskEm ++ invParts.flatMap Prod.fst ++ escParts.flatMap Prod.fst,
   invParts.flatMap Prod.snd ++ escParts.flatMap Prod.snd)

/-- The refs of the App component that carry state across reconciliation
cycles: the previous snapshot of each collection and the first-load flag. -/
structure EngineState where
  prevTasks : List Task
  prevInvoices : List Invoice
  prevEscalations : List Escalation
  isFirstLoad : Bool
deriving DecidableEq, Repr

/-- One full run of the notification useEffect, including the first-load
guard (which seeds the refs on the first non-empty snapshot and emits
nothing) and the missing-viewer guard.  Returns the next ref state, the
notifications emitted, and the Alert Channel messages forwarded. -/
def notifCycle (users : List User) (viewer : Option User) (st : EngineState)
    (tasks : List Task) (invoices : List Invoice) (escalations : List Escalation) :
    EngineState × List Emitted × List String :=
  if st.isFirstLoad then
    if 0 < tasks.length ∨ 0 < invoices.length then
      (⟨tasks, invoices, escalations, false⟩, [], [])
    else (st, [], [])
  else
    match viewer with
    | none => (st, [], [])
    | some vu =>
      let out := notifPass users vu st.prevTasks st.prevInvoices st.prevEscalations
        tasks invoices escalations
      (⟨tasks, invoices, escalations, false⟩, out.1, out.2)

-- ------------------------------------------------------------------
-- Escalation handlers (App component) and the close control
-- ------------------------------------------------------------------

/-- handleEscalateTask from the App component: creates the escalation in
PENDING with one initial message and flags the task as escalated. -/
def handleEscalateTask (currentUser : User) (now : Nat) (task : Task)
    (reason : String) (link : Option String) : List Command :=
  let initialMessage : EscalationMessage :=
    ⟨"msg-" ++ toString now, currentUser.id, currentUser.name, currentUser.role, reason, now⟩
  let escalation : Escalation :=
    ⟨"esc-" ++ toString now, task.id, task.title, currentUser.id, currentUser.name,
      link, [initialMessage], EscStatus.PENDING, now, now⟩
  [Command.saveEscalation escalation,
   Command.updateTask { task with isEscalated := some true }]

/-- handleEscalationReply from the App component: appends a message and
moves the status to RESPONDED for a manager author, PENDING otherwise. -/
def handleEscalationReply (currentUser : User) (now : Nat) (esc : Escalation)
    (messageText : String) : List Command :=
  let newMessage : EscalationMessage :=
    ⟨"msg-" ++ toString now, currentUser.id, currentUser.name, currentUser.role, messageText, now⟩
  let newStatus := if currentUser.role = UserRole.MANAGER then EscStatus.RESPONDED else EscStatus.PENDING
  [Command.saveEscalation
    { esc with history := esc.history ++ [newMessage], status := newStatus, updatedAt := now }]

/-- handleCloseEscalation from the App component: saves the escalation as
CLOSED and, when the linked task is found, clears its isEscalated flag
unconditionally. -/
def handleCloseEscalation (tasks : List Task) (now : Nat) (esc : Escalation) : List Command :=
  let updatedEsc := { esc with status := EscStatus.CLOSED, updatedAt := now }
  Command.saveEscalation updatedEsc ::
    (match tasks.find? (fun t => decide (t.id = esc.taskId)) with
     | some task => [Command.updateTask { task with isEscalated := some false }]
     | none => [])

/-- The render condition of the Mark Resolved and Close button in the
EscalationModal component: the footer shows the action area (rather than
the closed-thread banner) only when the escalation status is not CLOSED,
and inside it the close control exists exactly for an agent-role viewer on
a thread with more than one message. -/
def closeAllowed (currentUser : User) (esc : Escalation) : Bool :=
  decide (esc.status ≠ EscStatus.CLOSED)
    && decide (currentUser.role = UserRole.AGENT)
    && decide (1 < esc.history.length)

/-- A user-level close attempt through the UI: the close handler can only
fire when the EscalationModal renders the close control; otherwise no
command is issued. -/
def attemptClose (currentUser : User) (tasks : List Task) (now : Nat)
    (esc : Escalation) : Option (List Command) :=
  if closeAllowed currentUser esc then some (handleCloseEscalation tasks now esc) else none

/-- The storage collaborator applies saveEscalation as an id-keyed upsert. -/
def upsertEscalation (escs : List Escalation) (e : Escalation) : List Escalation :=
  if escs.any (fun x => decide (x.id = e.id)) then
    escs.map (fun x => if x.id = e.id then e else x)
  else escs ++ [e]

-- ------------------------------------------------------------------
-- TaskBoard status controls
-- ------------------------------------------------------------------

/-- isAutomatedTask from the TaskBoard component. -/
def isAutomatedTask (tt : TaskType) : Bool :=
  decide (tt = TaskType.AUGMENTING) || decide (tt = TaskType.QA)

/-- canEditTask from the TaskBoard component: manager or assignee. -/
def canEditTask (currentUser : User) (task : Task) : Bool :=
  decide (currentUser.role = UserRole.MANAGER) || decide (task.assigneeId = currentUser.id)

/-- Whether the status select of the TaskBoard task modal is enabled: the
negation of its disabled attribute.  The select offers every TaskStatus
value, including DONE. -/
def statusSelectEnabled (currentUser : User) (task : Task) : Bool :=
  !(!canEditTask currentUser task
    || (decide (task.status = TaskStatus.DONE) && isAutomatedTask task.type))

/-- handleStatusChange from the TaskBoard component: applies the new status
unconditionally, prepending a note when a non-empty note is supplied. -/
def handleStatusChange (currentUser : User) (now : Nat) (task : Task)
    (newStatus : TaskStatus) (note : Option String) : Task :=
  let base := { task with status := newStatus }
  match note with
  | some s =>
    if s = "" then base
    else { base with notes :=
      ⟨toString now, currentUser.id, currentUser.name,
        "Status changed to " ++ taskStatusRaw newStatus ++ ": " ++ s, now⟩ :: task.notes }
  | none => base

/-- The render condition of the Mark Complete button in the TaskBoard task
modal: only for an IN_PROGRESS task that is not automated, is not invoice
processing, and has no active escalation. -/
def markCompleteOffered (escalations : List Escalation) (task : Task) : Bool :=
  decide (task.status = TaskStatus.IN_PROGRESS)
    && !isAutomatedTask task.type
    && decide (task.type ≠ TaskType.INVOICE_PROCESSING)
    && !((escalations.filter (fun e => decide (e.taskId = task.id))).any
          (fun e => decide (e.status ≠ EscStatus.CLOSED)))

-- ------------------------------------------------------------------
-- Invoice handlers (App component) and InvoiceManager transitions
-- ------------------------------------------------------------------

/-- Modelled stand-in for the external Date.toISOString rendering of a
timestamp in milliseconds; injective in the timestamp, and no claim depends
on the textual format. -/
def isoString (ms : Nat) : String :=
  "iso:" ++ toString ms

/-- handleUpdateInvoice from the App component: saves the invoice, syncs
the companion processing task when present, creates the manager review
task on the COMPLETED edge when a manager exists, and completes the
manager review task when the invoice is UPLOADED. -/
def handleUpdateInvoice (users : List User) (invoices : List Invoice) (tasks : List Task)
    (now : Nat) (updatedInvoice : Invoice) : List Command :=
  let oldInvoice := invoices.find? (fun i => decide (i.id = updatedInvoice.id))
  let syncCmds : List Command :=
    match tasks.find? (fun t => decide (t.id = "task-" ++ updatedInvoice.id)) with
    | some linkedTask =>
      [Command.updateTask { linkedTask with
          assigneeId := strOr updatedInvoice.assigneeId linkedTask.assigneeId,
          dueDate := strOr updatedInvoice.dueDate linkedTask.dueDate,
          status :=
            if updatedInvoice.status = InvStatus.COMPLETED ∨ updatedInvoice.status = InvStatus.UPLOADED
            then TaskStatus.DONE else linkedTask.status }]
    | none => []
  let reviewCmds : List Command :=
    if ((match oldInvoice with
         | some o => decide (o.status ≠ InvStatus.COMPLETED)
         | none => true)
        && decide (updatedInvoice.status = InvStatus.COMPLETED)) then
      match users.find? (fun u => decide (u.role = UserRole.MANAGER)) with
      | some manager =>
        [Command.addTask {
          id := "task-mgr-" ++ updatedInvoice.id,
          title := "Upload to Beam: " ++ updatedInvoice.referenceName,
          description := "The invoice " ++ updatedInvoice.referenceName
            ++ " has been processed by the agent. Please upload the final deliverable to Beam Dynamics and confirm in the Studio Invoice tab.",
          assigneeId := manager.id,
          status := TaskStatus.TODO,
          priority := TaskPriority.HIGH,
          type := TaskType.INVOICE_PROCESSING,
          tags := ["Manager Action", "Upload", "Invoice"],
          dueDate := isoString (now + 86400000),
          createdAt := now,
          completedAt := none,
          notes := [],
          attachments :=
            match updatedInvoice.finalCsvFile with
            | some f => [⟨f.name, some "#", AttachmentType.csv⟩]
            | none => [],
          isEscalated := none,
          inventoryFileId := none,
          inventoryItemIds := none }]
      | none => []
    else []
  let uploadCmds : List Command :=
    if updatedInvoice.status = InvStatus.UPLOADED then
      match tasks.find? (fun t => decide (t.id = "task-mgr-" ++ updatedInvoice.id)) with
      | some mgrTask =>
        [Command.updateTask { mgrTask with status := TaskStatus.DONE, completedAt := some now }]
      | none => []
    else []
  Command.saveInvoice updatedInvoice :: (syncCmds ++ reviewCmds ++ uploadCmds)

/-- The invoice status transitions reachable through the InvoiceManager UI:
assignment (select disabled once COMPLETED or UPLOADED) sets ASSIGNED,
the agent complete button (hidden once COMPLETED or UPLOADED) sets
COMPLETED, and the manager confirm button (shown only at COMPLETED) sets
UPLOADED; nothing sets PENDING after creation. -/
def invoiceUIStep (a b : InvStatus) : Bool :=
  match b with
  | InvStatus.ASSIGNED => decide (a = InvStatus.PENDING) || decide (a = InvStatus.ASSIGNED)
  | InvStatus.COMPLETED => decide (a = InvStatus.PENDING) || decide (a = InvStatus.ASSIGNED)
  | InvStatus.UPLOADED => decide (a = InvStatus.COMPLETED)
  | InvStatus.PENDING => false

/-- A lifetime of invoice statuses: consecutive entries follow the UI
transition relation. -/
def invoiceChain : List InvStatus → Bool
  | a :: b :: rest => invoiceUIStep a b && invoiceChain (b :: rest)
  | _ => true

/-- The number of update steps in a status lifetime that cross the
COMPLETED edge, that is whose old status is not COMPLETED and whose new
status is COMPLETED. -/
def completedEdgeCount : List InvStatus → Nat
  | a :: b :: rest =>
    (if a ≠ InvStatus.COMPLETED ∧ b = InvStatus.COMPLETED then 1 else 0)
      + completedEdgeCount (b :: rest)
  | _ => 0

-- ------------------------------------------------------------------
-- Spec-side predicates (written from the specification wording, for the
-- refinement statements comparing the code with the spec)
-- ------------------------------------------------------------------

/-- The completion predicate as the specification words it: status
QA_COMPLETE when the task type is QA, otherwise status in the set
containing AUGMENTED and QA_COMPLETE. -/
def specItemOK (tt : TaskType) (item : InventoryItem) : Prop :=
  if tt = TaskType.QA then item.status = InventoryStatus.QA_COMPLETE
  else item.status = InventoryStatus.AUGMENTED ∨ item.status = InventoryStatus.QA_COMPLETE

/-- The condition of Rule 1 as the specification words it: the referenced
inventory file resolves, the gathered item set is non-empty, no non-CLOSED
escalation references the task, and every gathered item satisfies the
completion predicate. -/
def rule1SpecCond (inventories : List InventoryFile) (escalations : List Escalation)
    (task : Task) (fid : String) (ids : List String) : Prop :=
  (∀ e ∈ escalations, e.taskId = task.id → e.status = EscStatus.CLOSED)
  ∧ ∃ inv, inventories.find? (fun i => decide (i.id = fid)) = some inv
      ∧ inv.data.filter (fun item => ids.contains item.id) ≠ []
      ∧ ∀ item ∈ inv.data.filter (fun item => ids.contains item.id), specItemOK task.type item

-- ------------------------------------------------------------------
-- Sample entities used by the concrete witnesses and counterexamples
-- ------------------------------------------------------------------

/-- A sample manager user. -/
def uMgr : User := ⟨"mgr-1", "mgr", "Mia Manager", UserRole.MANAGER⟩

/-- A sample agent user. -/
def uAgent1 : User := ⟨"agent-1", "a1", "Ann Agent", UserRole.AGENT⟩

/-- A second sample agent user. -/
def uAgent2 : User := ⟨"agent-2", "a2", "Bob Agent", UserRole.AGENT⟩

/-- Builds a task with the workflow fields under test and neutral
presentation fields. -/
def mkTask (id assigneeId : String) (st : TaskStatus) (tt : TaskType) : Task :=
  { id := id, title := "Sample Task", description := "", assigneeId := assigneeId,
    status := st, priority := TaskPriority.MEDIUM, type := tt, tags := [], dueDate := "",
    createdAt := 0, completedAt := none, notes := [], attachments := [],
    isEscalated := none, inventoryFileId := none, inventoryItemIds := none }

/-- Builds an escalation message authored by the given user. -/
def mkMsg (author : User) (text : String) (ts : Nat) : EscalationMessage :=
  ⟨"m" ++ toString ts, author.id, author.name, author.role, text, ts⟩

/-- Builds an escalation raised by the given agent on the given task id. -/
def mkEsc (id taskId : String) (agent : User) (history : List EscalationMessage)
    (st : EscStatus) : Escalation :=
  ⟨id, taskId, "Sample Task", agent.id, agent.name, none, history, st, 0, 0⟩

/-- Builds an inventory item with a given status. -/
def mkItem (id : String) (st : InventoryStatus) : InventoryItem :=
  ⟨id, "p-" ++ id, "Product", "M1", "Mfr", "Studio A", st, none⟩

/-- Builds an invoice with a given status. -/
def mkInvoice (id : String) (st : InvStatus) : Invoice :=
  { id := id, referenceName := "Studio A - Jan Invoice", status := st,
    pdfFile := ⟨"inv.pdf", "1KB", AttachmentType.pdf, none⟩, csvFile := none,
    finalCsvFile := none, assigneeId := some uAgent1.id, assigneeName := some uAgent1.name,
    startDate := none, dueDate := none, isPreProcessed := false, createdAt := 0,
    completedAt := none }

-- ------------------------------------------------------------------
-- Concrete entities for witnesses and counterexamples
-- ------------------------------------------------------------------

/-- A QA task assigned to the first agent. -/
def taskT1 : Task := mkTask "t1" "agent-1" TaskStatus.IN_PROGRESS TaskType.QA

/-- An escalation on t1 with a reply, so it is closable through the UI. -/
def escA : Escalation :=
  mkEsc "esc-1" "t1" uAgent1 [mkMsg uAgent1 "Blocked on vendor" 1, mkMsg uMgr "Looking into it" 2]
    EscStatus.RESPONDED

/-- A second, still-pending escalation on the same task t1. -/
def escB : Escalation :=
  mkEsc "esc-2" "t1" uAgent1 [mkMsg uAgent1 "Second issue" 3] EscStatus.PENDING

/-- An AUGMENTING task assigned to the first agent, currently in progress. -/
def taskAug : Task := mkTask "t-aug" "agent-1" TaskStatus.IN_PROGRESS TaskType.AUGMENTING

/-- A pending escalation on the AUGMENTING task. -/
def escAug : Escalation :=
  mkEsc "esc-3" "t-aug" uAgent1 [mkMsg uAgent1 "Stuck" 1] EscStatus.PENDING

/-- An escalation raised by the first agent with one manager reply. -/
def escTwoMsgs : Escalation :=
  mkEsc "esc-4" "t1" uAgent1 [mkMsg uAgent1 "Issue" 1, mkMsg uMgr "Reply" 2] EscStatus.RESPONDED

/-- An escalation whose history holds only the initial message. -/
def escOneMsg : Escalation :=
  mkEsc "esc-5" "t1" uAgent1 [mkMsg uAgent1 "Solo" 1] EscStatus.PENDING

/-- A freshly raised escalation by the first agent on task t2. -/
def escSolo : Escalation :=
  mkEsc "esc-6" "t2" uAgent1 [mkMsg uAgent1 "Raised" 1] EscStatus.PENDING

-- ------------------------------------------------------------------
-- Claim theorems
-- ------------------------------------------------------------------

/-- Claim C2, behaviour of the code at the failing input: closing one of
two active escalations on task t1 issues an updateTask command that sets
isEscalated to false, even though the other escalation in the post-close
collection still references t1 with a non-CLOSED status.  This contradicts
the claimed invariant that isEscalated stays true while another active
escalation remains. -/
theorem close_clears_escalated_flag_despite_other_active :
    Command.updateTask { taskT1 with isEscalated := some false }
        ∈ handleCloseEscalation [taskT1] 100 escA
    ∧ ∃ e ∈ upsertEscalation [escA, escB] { escA with status := EscStatus.CLOSED, updatedAt := 100 },
        e.taskId = taskT1.id ∧ e.status ≠ EscStatus.CLOSED := by
  decide

/-- Claim C5, behaviour of the code at the failing input: the TaskBoard
status select is enabled for the assignee of an in-progress AUGMENTING
task with an active escalation, and handleStatusChange applies DONE
unconditionally, even though the dedicated Mark Complete control is
withheld for exactly this task. -/
theorem select_allows_done_for_automated_escalated_task :
    statusSelectEnabled uAgent1 taskAug = true
    ∧ (handleStatusChange uAgent1 100 taskAug TaskStatus.DONE none).status = TaskStatus.DONE
    ∧ isAutomatedTask taskAug.type = true
    ∧ hasActiveEscalation [escAug] taskAug.id = true
    ∧ markCompleteOffered [escAug] taskAug = false := by
  decide

/-- Claim C6: while the first-load flag is set, a reconciliation cycle
emits no notifications and forwards nothing to the Alert Channel, for
every viewer and every content of the fresh collections. -/
theorem baseline_cycle_emits_nothing (users : List User) (viewer : Option User)
    (st : EngineState) (tasks : List Task) (invoices : List Invoice)
    (escalations : List Escalation) (h : st.isFirstLoad = true) :
    (notifCycle users viewer st tasks invoices escalations).2.1 = []
    ∧ (notifCycle users viewer st tasks invoices escalations).2.2 = [] := by
  unfold notifCycle
  rw [h]
  split
  · split <;> exact ⟨rfl, rfl⟩
  · simp_all

/-- Witness for C6 at a concrete first-load state and non-empty snapshot. -/
theorem baseline_cycle_emits_nothing_witness :
    (notifCycle [uMgr] (some uMgr) ⟨[], [], [], true⟩ [taskT1] [] []).2.1 = []
    ∧ (notifCycle [uMgr] (some uMgr) ⟨[], [], [], true⟩ [taskT1] [] []).2.2 = [] :=
  baseline_cycle_emits_nothing [uMgr] (some uMgr) ⟨[], [], [], true⟩ [taskT1] [] [] rfl

/-- Claim C4, counterexample: an agent who did not raise the escalation is
offered the close control whenever the thread has more than one message,
and the attempt succeeds, closing the escalation; so close is not
restricted to the raising agent. -/
theorem close_succeeds_for_non_raising_agent :
    uAgent2.id ≠ escTwoMsgs.agentId
    ∧ closeAllowed uAgent2 escTwoMsgs = true
    ∧ attemptClose uAgent2 [] 100 escTwoMsgs
        = some [Command.saveEscalation { escTwoMsgs with status := EscStatus.CLOSED, updatedAt := 100 }] := by
  decide

/-- Claim C4 as amended: for an escalation whose history holds at most one
message, the UI close attempt issues no command at all, so no mutation
occurs and the status is untouched; and in general the close control is
offered exactly on a non-CLOSED escalation, to a viewer of role AGENT, on
a thread with more than one message.  No ValidationError value exists;
rejection is by omitting the control, and the close handler itself
performs no validation. -/
theorem close_control_guard (viewer : User) (tasks : List Task) (now : Nat)
    (esc : Escalation) (h : esc.history.length ≤ 1) :
    attemptClose viewer tasks now esc = none
    ∧ ∀ esc2 : Escalation,
        (closeAllowed viewer esc2 = true
          ↔ (esc2.status ≠ EscStatus.CLOSED ∧ viewer.role = UserRole.AGENT
             ∧ 1 < esc2.history.length)) := by
  constructor
  · unfold attemptClose closeAllowed
    have h1 : ¬ (1 < esc.history.length) := by omega
    simp [h1]
  · intro esc2
    unfold closeAllowed
    simp [and_assoc]

/-- Witness for the amended C4 at a concrete one-message escalation. -/
theorem close_control_guard_witness :
    escOneMsg.history.length ≤ 1
    ∧ (attemptClose uAgent1 [] 100 escOneMsg = none
       ∧ ∀ esc2 : Escalation,
          (closeAllowed uAgent1 esc2 = true
            ↔ (esc2.status ≠ EscStatus.CLOSED ∧ uAgent1.role = UserRole.AGENT
               ∧ 1 < esc2.history.length))) :=
  ⟨by decide, close_control_guard uAgent1 [] 100 escOneMsg (by decide)⟩

/-- Claim C8, counterexample: a Manager viewer evaluating the delta of a
freshly raised agent escalation receives exactly one notification but no
Alert Channel forward, because the code gates sendToSlack on the role of
the viewer, not of the raiser. -/
theorem manager_viewer_gets_no_slack_on_new_escalation :
    (escalationNotifs uMgr [] escSolo).1.length = 1
    ∧ (escalationNotifs uMgr [] escSolo).2.length = 0 := by
  decide

/-- Claim C8 as amended: on a new-escalation delta, the viewer receives a
notification exactly when the viewer is a Manager or is the agent who
raised the escalation; the Alert Channel forward happens exactly when such
a recipient viewer is additionally not a Manager, that is only from the
raising agent session; and the escalate handler flags the task with
isEscalated true. -/
theorem escalation_created_audience (viewer : User) (prevEscs : List Escalation)
    (e : Escalation)
    (hnew : prevEscs.find? (fun x => decide (x.id = e.id)) = none)
    (raiser : User) (now : Nat) (task : Task) (reason : String) (link : Option String) :
    ((escalationNotifs viewer prevEscs e).1 ≠ []
       ↔ (viewer.role = UserRole.MANAGER ∨ e.agentId = viewer.id))
    ∧ ((escalationNotifs viewer prevEscs e).2 ≠ []
       ↔ ((viewer.role = UserRole.MANAGER ∨ e.agentId = viewer.id)
          ∧ viewer.role ≠ UserRole.MANAGER))
    ∧ Command.updateTask { task with isEscalated := some true }
        ∈ handleEscalateTask raiser now task reason link := by
  refine ⟨?_, ?_, ?_⟩
  · unfold escalationNotifs
    rw [hnew]
    by_cases hm : viewer.role = UserRole.MANAGER ∨ e.agentId = viewer.id <;> simp [hm]
  · unfold escalationNotifs
    rw [hnew]
    by_cases hm : viewer.role = UserRole.MANAGER ∨ e.agentId = viewer.id
    · by_cases hr : viewer.role = UserRole.MANAGER
      · simp [hm, hr]
      · by_cases ha : e.agentId = viewer.id <;> simp [hm, hr, ha]
    · simp [hm]
  · unfold handleEscalateTask
    simp

/-- Witness for the amended C8 at the raising agent as viewer: the
notification fires and the Alert Channel forward fires too. -/
theorem escalation_created_audience_witness :
    (((escalationNotifs uAgent1 [] escSolo).1 ≠ []
       ↔ (uAgent1.role = UserRole.MANAGER ∨ escSolo.agentId = uAgent1.id))
    ∧ ((escalationNotifs uAgent1 [] escSolo).2 ≠ []
       ↔ ((uAgent1.role = UserRole.MANAGER ∨ escSolo.agentId = uAgent1.id)
          ∧ uAgent1.role ≠ UserRole.MANAGER))
    ∧ Command.updateTask { taskT1 with isEscalated := some true }
        ∈ handleEscalateTask uAgent1 5 taskT1 "Reason" none) :=
  escalation_created_audience uAgent1 [] escSolo rfl uAgent1 5 taskT1 "Reason" none

/-- The previous snapshot of an escalation whose status then changes while
its history also grows. -/
def escOld9 : Escalation :=
  mkEsc "esc-7" "t1" uAgent1 [mkMsg uAgent1 "Issue" 1, mkMsg uMgr "Reply" 2] EscStatus.RESPONDED

/-- The fresh snapshot of the same escalation: the agent replied, so the
history grew by one message and the status moved back to PENDING. -/
def escNew9 : Escalation :=
  mkEsc "esc-7" "t1" uAgent1
    [mkMsg uAgent1 "Issue" 1, mkMsg uMgr "Reply" 2, mkMsg uAgent1 "More info" 3]
    EscStatus.PENDING

/-- Claim C9, counterexample: the history grew by one message whose author
differs from the Manager viewer, yet no New Message notification is
emitted, because the status also changed and the status-change branch of
the else-if chain shadows the new-message branch. -/
theorem status_change_suppresses_new_message_notification :
    escOld9.history.length < escNew9.history.length
    ∧ escNew9.history.getLast?.map (fun m => m.authorId) = some uAgent1.id
    ∧ uAgent1.id ≠ uMgr.id
    ∧ ∀ em ∈ (escalationNotifs uMgr [escOld9] escNew9).1, em.title ≠ "New Message" := by
  decide

/-- Claim C9 as amended: for an escalation present in both snapshots whose
history grew, the New Message notification is emitted if and only if the
status is unchanged and the author of the last message is not the viewer;
the recipient test places no Manager-or-agent restriction on the viewer. -/
theorem new_message_notification_iff (viewer : User) (prevEscs : List Escalation)
    (o e : Escalation) (lastMsg : EscalationMessage)
    (hfind : prevEscs.find? (fun x => decide (x.id = e.id)) = some o)
    (hgrow : o.history.length < e.history.length)
    (hlast : e.history.getLast? = some lastMsg) :
    (Emitted.mk "New Message" ("New reply in escalation for \"" ++ e.taskTitle ++ "\".")
        ∈ (escalationNotifs viewer prevEscs e).1)
    ↔ (o.status = e.status ∧ lastMsg.authorId ≠ viewer.id) := by
  unfold escalationNotifs
  rw [hfind]
  dsimp only
  by_cases hst : o.status = e.status
  · rw [if_neg (by simp [hst]), if_pos hgrow, hlast]
    dsimp only
    by_cases hauth : lastMsg.authorId = viewer.id <;> simp [hst, hauth]
  · rw [if_pos hst]
    dsimp only
    have hne : ("New Message" : String) ≠ "Escalation Update" := by decide
    by_cases hm : viewer.role = UserRole.MANAGER ∨ e.agentId = viewer.id <;>
      simp [hm, hst, Emitted.mk.injEq, hne]

/-- Previous snapshot for the C9 witness: a pending one-message thread. -/
def escOld9b : Escalation :=
  mkEsc "esc-8" "t1" uAgent1 [mkMsg uAgent1 "Issue" 1] EscStatus.PENDING

/-- Fresh snapshot for the C9 witness: the agent added a second message and
the status stayed PENDING. -/
def escNew9b : Escalation :=
  mkEsc "esc-8" "t1" uAgent1 [mkMsg uAgent1 "Issue" 1, mkMsg uAgent1 "Ping" 4] EscStatus.PENDING

/-- Witness for the amended C9 at a concrete unchanged-status delta. -/
theorem new_message_notification_iff_witness :
    (Emitted.mk "New Message" ("New reply in escalation for \"" ++ escNew9b.taskTitle ++ "\".")
        ∈ (escalationNotifs uMgr [escOld9b] escNew9b).1)
    ↔ (escOld9b.status = escNew9b.status ∧ (mkMsg uAgent1 "Ping" 4).authorId ≠ uMgr.id) :=
  new_message_notification_iff uMgr [escOld9b] escOld9b escNew9b (mkMsg uAgent1 "Ping" 4)
    (by decide) (by decide) (by decide)

-- ------------------------------------------------------------------
-- General helper lemmas
-- ------------------------------------------------------------------

/-- The Bool completion check of the code agrees with the completion
predicate as worded by the spec. -/
theorem itemComplete_iff (tt : TaskType) (item : InventoryItem) :
    itemComplete tt item = true ↔ specItemOK tt item := by
  unfold itemComplete specItemOK
  split <;> simp

/-- hasActiveEscalation is false exactly when every escalation referencing
the task is CLOSED. -/
theorem hasActiveEscalation_eq_false (l : List Escalation) (tid : String) :
    hasActiveEscalation l tid = false
      ↔ ∀ e ∈ l, e.taskId = tid → e.status = EscStatus.CLOSED := by
  unfold hasActiveEscalation
  simp [List.any_eq_false]

/-- In a list whose keys are pairwise distinct, two members with the same
key coincide. -/
theorem pairwise_key_eq {α : Type} (f : α → String) (l : List α)
    (hp : l.Pairwise (fun a b => f a ≠ f b)) :
    ∀ {x y}, x ∈ l → y ∈ l → f x = f y → x = y := by
  induction l with
  | nil => intro x y hx _ _; cases hx
  | cons a t ih =>
    rw [List.pairwise_cons] at hp
    intro x y hx hy hxy
    rcases List.mem_cons.mp hx with rfl | hxt
    · rcases List.mem_cons.mp hy with rfl | hyt
      · rfl
      · exact absurd hxy (hp.1 y hyt)
    · rcases List.mem_cons.mp hy with rfl | hyt
      · exact absurd hxy.symm (hp.1 x hxt)
      · exact ih hp.2 hxt hyt hxy

/-- In a list whose keys are pairwise distinct, looking a member up by its
own key finds exactly that member. -/
theorem find?_key_self {α : Type} (f : α → String) (l : List α)
    (hp : l.Pairwise (fun a b => f a ≠ f b)) :
    ∀ {x}, x ∈ l → l.find? (fun y => decide (f y = f x)) = some x := by
  induction l with
  | nil => intro x hx; cases hx
  | cons a t ih =>
    rw [List.pairwise_cons] at hp
    intro x hx
    rcases List.mem_cons.mp hx with rfl | hxt
    · simp [List.find?]
    · have hne : f a ≠ f x := hp.1 x hxt
      have hpa : decide (f a = f x) = false := by simp [hne]
      simp only [List.find?, hpa]
      exact ih hp.2 hxt

/-- A flatMap over a list is empty when every image is empty. -/
theorem flatMap_eq_nil_of {α β : Type} (f : α → List β) (l : List α)
    (h : ∀ x ∈ l, f x = []) : l.flatMap f = [] := by
  induction l with
  | nil => rfl
  | cons a t ih =>
    have ha := h a (List.mem_cons_self a t)
    have ht : ∀ x ∈ t, f x = [] := fun x hx => h x (List.mem_cons_of_mem a hx)
    simp [List.flatMap_cons, ha, ih ht]

/-- A map that returns its input list fixes every element. -/
theorem map_eq_self_fix {α : Type} (f : α → α) (l : List α)
    (h : l.map f = l) : ∀ x ∈ l, f x = x := by
  induction l with
  | nil => intro x hx; cases hx
  | cons a t ih =>
    rw [List.map_cons, List.cons.injEq] at h
    intro x hx
    rcases List.mem_cons.mp hx with rfl | hxt
    · exact h.1
    · exact ih h.2 x hxt

/-- Inversion on a successful auto-complete step: the produced update is
the DONE transition with completedAt set, and every guard of the rule body
passed. -/
theorem autoCompleteStep_some_inv {inventories : List InventoryFile}
    {escalations : List Escalation} {now : Nat} {task u : Task}
    (h : autoCompleteStep inventories escalations now task = some u) :
    u = { task with status := TaskStatus.DONE, completedAt := some now }
    ∧ task.status ≠ TaskStatus.DONE
    ∧ hasActiveEscalation escalations task.id = false
    ∧ ∃ fid ids, task.inventoryFileId = some fid ∧ task.inventoryItemIds = some ids
        ∧ ∃ inv, inventories.find? (fun i => decide (i.id = fid)) = some inv
            ∧ inv.data.filter (fun item => ids.contains item.id) ≠ []
            ∧ (inv.data.filter (fun item => ids.contains item.id)).all
                (fun item => itemComplete task.type item) = true := by
  unfold autoCompleteStep at h
  dsimp only at h
  split at h
  · exact absurd h (by simp)
  rename_i h1
  split at h
  · exact absurd h (by simp)
  rename_i h2
  split at h
  case _ fid ids hfidEq hidsEq =>
    split at h
    · exact absurd h (by simp)
    rename_i h3
    split at h
    · exact absurd h (by simp)
    rename_i h4
    split at h
    · exact absurd h (by simp)
    rename_i inventory hfindEq
    split at h
    · exact absurd h (by simp)
    rename_i h5
    split at h
    · rename_i h6
      refine ⟨(by injection h with hu; exact hu.symm), h1, (by simp at h4; exact h4),
        fid, ids, hfidEq, hidsEq, inventory, hfindEq, ?_, h6⟩
      intro hnil
      exact h5 (by rw [hnil]; rfl)
    · exact absurd h (by simp)
  case _ =>
    exact absurd h (by simp)

/-- The auto-complete step succeeds when every guard of the rule body
holds. -/
theorem autoCompleteStep_eq_some_of {inventories : List InventoryFile}
    {escalations : List Escalation} {now : Nat} {task : Task} {fid : String} {ids : List String}
    (hstat : task.status ≠ TaskStatus.DONE)
    (hfid : task.inventoryFileId = some fid) (hfne : fid ≠ "")
    (hids : task.inventoryItemIds = some ids) (hine : ids ≠ [])
    (hesc : hasActiveEscalation escalations task.id = false)
    {inv : InventoryFile}
    (hinv : inventories.find? (fun i => decide (i.id = fid)) = some inv)
    (hrel : inv.data.filter (fun item => ids.contains item.id) ≠ [])
    (hall : (inv.data.filter (fun item => ids.contains item.id)).all
              (fun item => itemComplete task.type item) = true) :
    autoCompleteStep inventories escalations now task
      = some { task with status := TaskStatus.DONE, completedAt := some now } := by
  have hsf : strFalsy task.inventoryFileId = false := by
    rw [hfid]; unfold strFalsy; simp [hfne]
  unfold autoCompleteStep
  rw [if_neg hstat]
  simp only [hsf, Bool.false_eq_true, if_false]
  rw [hfid, hids]
  dsimp only
  rw [if_neg (by simp [hine])]
  simp only [hesc, Bool.false_eq_true, if_false]
  rw [hinv]
  dsimp only
  rw [if_neg (fun h0 => hrel (List.length_eq_zero.mp h0))]
  simp only [hall, if_true]

/-- The spec-worded Rule 1 condition coincides with the guards of the
code. -/
theorem rule1SpecCond_iff_code (inventories : List InventoryFile)
    (escalations : List Escalation) (task : Task) (fid : String) (ids : List String) :
    rule1SpecCond inventories escalations task fid ids
      ↔ (hasActiveEscalation escalations task.id = false
         ∧ ∃ inv, inventories.find? (fun i => decide (i.id = fid)) = some inv
             ∧ inv.data.filter (fun item => ids.contains item.id) ≠ []
             ∧ (inv.data.filter (fun item => ids.contains item.id)).all
                 (fun item => itemComplete task.type item) = true) := by
  unfold rule1SpecCond
  rw [hasActiveEscalation_eq_false]
  simp only [List.all_eq_true, itemComplete_iff]

/-- Claim C1: for a task that is not DONE with a non-empty inventory file
reference and a non-empty item id list, one automation pass issues the
transition of that task to DONE with completedAt set to now exactly when
the spec-worded Rule 1 condition holds; and when that condition fails, no
command of the pass touches the task. -/
theorem auto_complete_done_iff (tasks : List Task) (inventories : List InventoryFile)
    (escalations : List Escalation) (now : Nat) (task : Task) (fid : String) (ids : List String)
    (hmem : task ∈ tasks)
    (hnodup : tasks.Pairwise (fun a b => a.id ≠ b.id))
    (hstat : task.status ≠ TaskStatus.DONE)
    (hfid : task.inventoryFileId = some fid) (hfne : fid ≠ "")
    (hids : task.inventoryItemIds = some ids) (hine : ids ≠ []) :
    ({ task with status := TaskStatus.DONE, completedAt := some now }
        ∈ autoCompleteCommands tasks inventories escalations now
      ↔ rule1SpecCond inventories escalations task fid ids)
    ∧ (¬ rule1SpecCond inventories escalations task fid ids
       → ∀ t ∈ autoCompleteCommands tasks inventories escalations now, t.id ≠ task.id) := by
  rw [rule1SpecCond_iff_code]
  constructor
  · constructor
    · intro hmemcmd
      unfold autoCompleteCommands at hmemcmd
      split at hmemcmd
      · cases hmemcmd
      · rw [List.mem_filterMap] at hmemcmd
        obtain ⟨s, hs, hstep⟩ := hmemcmd
        obtain ⟨hu, _, hescF, fid2, ids2, hfid2, hids2, inv, hfind, hrelne, hallc⟩ :=
          autoCompleteStep_some_inv hstep
        have hsid : task.id = s.id := by simpa using congrArg Task.id hu
        have hseq : s = task := pairwise_key_eq (fun t => t.id) tasks hnodup hs hmem hsid.symm
        subst hseq
        rw [hfid] at hfid2
        injection hfid2 with hf2
        subst hf2
        rw [hids] at hids2
        injection hids2 with hi2
        subst hi2
        exact ⟨hescF, inv, hfind, hrelne, hallc⟩
    · rintro ⟨hescF, inv, hfind, hrelne, hallc⟩
      unfold autoCompleteCommands
      have hg1 : ¬ tasks.length = 0 := by
        intro h0
        rw [List.length_eq_zero] at h0
        subst h0
        cases hmem
      have hg2 : ¬ inventories.length = 0 := by
        intro h0
        rw [List.length_eq_zero] at h0
        subst h0
        simp at hfind
      rw [if_neg (not_or.mpr ⟨hg1, hg2⟩)]
      rw [List.mem_filterMap]
      exact ⟨task, hmem,
        autoCompleteStep_eq_some_of hstat hfid hfne hids hine hescF hfind hrelne hallc⟩
  · intro hncond t htmem htid
    unfold autoCompleteCommands at htmem
    split at htmem
    · cases htmem
    · rw [List.mem_filterMap] at htmem
      obtain ⟨s, hs, hstep⟩ := htmem
      obtain ⟨hu, _, hescF, fid2, ids2, hfid2, hids2, inv, hfind, hrelne, hallc⟩ :=
        autoCompleteStep_some_inv hstep
      have htsid : t.id = s.id := by simpa using congrArg Task.id hu
      have hseq : s = task :=
        pairwise_key_eq (fun t => t.id) tasks hnodup hs hmem (htsid.symm.trans htid)
      subst hseq
      rw [hfid] at hfid2
      injection hfid2 with hf2
      subst hf2
      rw [hids] at hids2
      injection hids2 with hi2
      subst hi2
      exact hncond ⟨hescF, inv, hfind, hrelne, hallc⟩

/-- An inventory file with two QA-complete items, for the C1 witness. -/
def wFile : InventoryFile :=
  ⟨"file-1", "inv.csv", 0, 2,
    [mkItem "i1" InventoryStatus.QA_COMPLETE, mkItem "i2" InventoryStatus.QA_COMPLETE]⟩

/-- A QA task linked to wFile and its two items, for the C1 witness. -/
def wTask : Task :=
  { mkTask "t-qa" "agent-1" TaskStatus.IN_PROGRESS TaskType.QA with
      inventoryFileId := some "file-1", inventoryItemIds := some ["i1", "i2"] }

/-- Witness for C1 at a concrete QA task whose two linked items are
QA-complete and with no escalations. -/
theorem auto_complete_done_iff_witness :
    ({ wTask with status := TaskStatus.DONE, completedAt := some 5 }
        ∈ autoCompleteCommands [wTask] [wFile] [] 5
      ↔ rule1SpecCond [wFile] [] wTask "file-1" ["i1", "i2"])
    ∧ (¬ rule1SpecCond [wFile] [] wTask "file-1" ["i1", "i2"]
       → ∀ t ∈ autoCompleteCommands [wTask] [wFile] [] 5, t.id ≠ wTask.id) :=
  auto_complete_done_iff [wTask] [wFile] [] 5 wTask "file-1" ["i1", "i2"]
    (by simp) (by simp) (by decide) rfl (by decide) rfl (by decide)

/-- A filterMap over a list is empty when every image is none. -/
theorem filterMap_eq_nil_of {α β : Type} (f : α → Option β) (l : List α)
    (h : ∀ x ∈ l, f x = none) : l.filterMap f = [] := by
  induction l with
  | nil => rfl
  | cons a t ih =>
    have ha := h a (List.mem_cons_self a t)
    have ht : ∀ x ∈ t, f x = none := fun x hx => h x (List.mem_cons_of_mem a hx)
    simp [List.filterMap_cons, ha, ih ht]

/-- Claim C7: when the collections of the second cycle are identical to
those of the first — captured by id-keyed collections together with the
fact that the writes of the previous automation pass left the task
collection unchanged — the notification pass emits nothing and forwards
nothing, and the automation pass issues zero commands. -/
theorem unchanged_cycle_silent (users : List User) (vu : User)
    (tasks : List Task) (invoices : List Invoice) (escalations : List Escalation)
    (inventories : List InventoryFile) (now : Nat)
    (htask : tasks.Pairwise (fun a b => a.id ≠ b.id))
    (hinv : invoices.Pairwise (fun a b => a.id ≠ b.id))
    (hesc : escalations.Pairwise (fun a b => a.id ≠ b.id))
    (hfix : autoCompleteApply tasks inventories escalations now = tasks) :
    notifPass users vu tasks invoices escalations tasks invoices escalations = ([], [])
    ∧ autoCompleteCommands tasks inventories escalations now = [] := by
  constructor
  · have ht : ∀ t ∈ tasks, taskNotifs users vu tasks t = [] := by
      intro t htm
      unfold taskNotifs
      rw [find?_key_self (fun x => x.id) tasks htask htm]
      simp
    have hi : ∀ i ∈ invoices, invoiceNotifs vu invoices i = ([], []) := by
      intro i him
      unfold invoiceNotifs
      rw [find?_key_self (fun x => x.id) invoices hinv him]
      dsimp only
      by_cases hc : i.status = InvStatus.COMPLETED <;> simp [hc]
    have he : ∀ e ∈ escalations, escalationNotifs vu escalations e = ([], []) := by
      intro e hem
      unfold escalationNotifs
      rw [find?_key_self (fun x => x.id) escalations hesc hem]
      simp
    unfold notifPass
    dsimp only
    rw [flatMap_eq_nil_of _ _ ht]
    have hi1 : (invoices.map (invoiceNotifs vu invoices)).flatMap Prod.fst = [] := by
      apply flatMap_eq_nil_of
      intro p hp
      rcases List.mem_map.mp hp with ⟨i, him, rfl⟩
      rw [hi i him]
    have hi2 : (invoices.map (invoiceNotifs vu invoices)).flatMap Prod.snd = [] := by
      apply flatMap_eq_nil_of
      intro p hp
      rcases List.mem_map.mp hp with ⟨i, him, rfl⟩
      rw [hi i him]
    have he1 : (escalations.map (escalationNotifs vu escalations)).flatMap Prod.fst = [] := by
      apply flatMap_eq_nil_of
      intro p hp
      rcases List.mem_map.mp hp with ⟨e, hem, rfl⟩
      rw [he e hem]
    have he2 : (escalations.map (escalationNotifs vu escalations)).flatMap Prod.snd = [] := by
      apply flatMap_eq_nil_of
      intro p hp
      rcases List.mem_map.mp hp with ⟨e, hem, rfl⟩
      rw [he e hem]
    rw [hi1, hi2, he1, he2]
    rfl
  · unfold autoCompleteCommands
    unfold autoCompleteApply at hfix
    by_cases hg : tasks.length = 0 ∨ inventories.length = 0
    · rw [if_pos hg]
    · rw [if_neg hg]
      rw [if_neg hg] at hfix
      have hfx := map_eq_self_fix _ tasks hfix
      apply filterMap_eq_nil_of
      intro t htm
      cases hstep : autoCompleteStep inventories escalations now t with
      | none => rfl
      | some u =>
        exfalso
        have hgd := hfx t htm
        rw [hstep] at hgd
        simp at hgd
        obtain ⟨hu, hstat, -⟩ := autoCompleteStep_some_inv hstep
        rw [hgd] at hu
        have hts : t.status = TaskStatus.DONE := by
          simpa using congrArg Task.status hu
        exact hstat hts

/-- A task already DONE, for the C7 witness. -/
def dTask : Task := mkTask "t9" "agent-1" TaskStatus.DONE TaskType.QA

/-- Witness for C7 at a concrete quiescent state: one DONE task, one
inventory file, no invoices and no escalations. -/
theorem unchanged_cycle_silent_witness :
    notifPass [uMgr] uMgr [dTask] [] [] [dTask] [] [] = ([], [])
    ∧ autoCompleteCommands [dTask] [wFile] [] 7 = [] :=
  unchanged_cycle_silent [uMgr] uMgr [dTask] [] [] [wFile] 7
    (by simp) (by simp) (by simp) (by decide)

/-- After UPLOADED, no UI transition exists, so a chain from UPLOADED is a
singleton. -/
theorem invoiceChain_from_uploaded (rest : List InvStatus)
    (h : invoiceChain (InvStatus.UPLOADED :: rest) = true) : rest = [] := by
  cases rest with
  | nil => rfl
  | cons b r =>
    exfalso
    unfold invoiceChain at h
    rw [Bool.and_eq_true] at h
    have hb := h.1
    cases b <;> simp [invoiceUIStep] at hb

/-- A chain starting at COMPLETED contains no further COMPLETED edge. -/
theorem invoiceChain_from_completed (rest : List InvStatus)
    (h : invoiceChain (InvStatus.COMPLETED :: rest) = true) :
    completedEdgeCount (InvStatus.COMPLETED :: rest) = 0 := by
  cases rest with
  | nil => rfl
  | cons b r =>
    unfold invoiceChain at h
    rw [Bool.and_eq_true] at h
    have hb : b = InvStatus.UPLOADED := by
      have h1 := h.1
      cases b
      · simp [invoiceUIStep] at h1
      · simp [invoiceUIStep] at h1
      · simp [invoiceUIStep] at h1
      · rfl
    subst hb
    have hr : r = [] := invoiceChain_from_uploaded r h.2
    subst hr
    decide

/-- Any UI-reachable lifetime of invoice statuses crosses the COMPLETED
edge at most once. -/
theorem invoiceChain_count_le_one :
    ∀ (l : List InvStatus), invoiceChain l = true → completedEdgeCount l ≤ 1
  | [], _ => by simp [completedEdgeCount]
  | [_], _ => by simp [completedEdgeCount]
  | a :: b :: rest, h => by
    unfold invoiceChain at h
    rw [Bool.and_eq_true] at h
    by_cases hedge : a ≠ InvStatus.COMPLETED ∧ b = InvStatus.COMPLETED
    · have h0 : completedEdgeCount (b :: rest) = 0 := by
        rw [hedge.2]
        rw [hedge.2] at h
        exact invoiceChain_from_completed rest h.2
      unfold completedEdgeCount
      rw [if_pos hedge, h0]
    · have hle := invoiceChain_count_le_one (b :: rest) h.2
      unfold completedEdgeCount
      rw [if_neg hedge]
      omega

/-- Claim C3: given the previous state of the invoice and a designated
manager, one handleUpdateInvoice run creates a task with the deterministic
manager-review id exactly when the update crosses the COMPLETED edge; and
along any UI-reachable status lifetime of one invoice the COMPLETED edge
is crossed at most once, so the review task is created at most once. -/
theorem manager_review_task_edge_unique (users : List User) (invoices : List Invoice)
    (tasks : List Task) (now : Nat) (updatedInvoice old : Invoice) (mgr : User)
    (hold : invoices.find? (fun i => decide (i.id = updatedInvoice.id)) = some old)
    (hmgr : users.find? (fun u => decide (u.role = UserRole.MANAGER)) = some mgr)
    (statuses : List InvStatus) (hchain : invoiceChain statuses = true) :
    ((∃ t, Command.addTask t ∈ handleUpdateInvoice users invoices tasks now updatedInvoice
        ∧ t.id = "task-mgr-" ++ updatedInvoice.id)
      ↔ (old.status ≠ InvStatus.COMPLETED ∧ updatedInvoice.status = InvStatus.COMPLETED))
    ∧ completedEdgeCount statuses ≤ 1 := by
  refine ⟨?_, invoiceChain_count_le_one statuses hchain⟩
  unfold handleUpdateInvoice
  rw [hold, hmgr]
  dsimp only
  by_cases hedge : old.status ≠ InvStatus.COMPLETED ∧ updatedInvoice.status = InvStatus.COMPLETED
  · have hcond : (decide (old.status ≠ InvStatus.COMPLETED)
        && decide (updatedInvoice.status = InvStatus.COMPLETED)) = true := by
      simp [hedge.1, hedge.2]
    rw [hcond, if_pos rfl]
    exact iff_of_true
      ⟨_, List.mem_cons_of_mem _ (List.mem_append_left _ (List.mem_append_right _
            (List.mem_cons_self _ _))), rfl⟩
      hedge
  · have hcond : (decide (old.status ≠ InvStatus.COMPLETED)
        && decide (updatedInvoice.status = InvStatus.COMPLETED)) = false := by
      by_cases h1 : old.status = InvStatus.COMPLETED
      · simp [h1]
      · have h2 : updatedInvoice.status ≠ InvStatus.COMPLETED := fun hc => hedge ⟨h1, hc⟩
        simp [h2]
    refine iff_of_false ?_ hedge
    rintro ⟨t, htmem, -⟩
    rw [hcond] at htmem
    by_cases hup : updatedInvoice.status = InvStatus.UPLOADED <;>
      cases hsync : tasks.find? (fun t => decide (t.id = "task-" ++ updatedInvoice.id)) <;>
        cases hmt : tasks.find? (fun t => decide (t.id = "task-mgr-" ++ updatedInvoice.id)) <;>
          simp [hsync, hmt, hup] at htmem

/-- Witness for C3 at a concrete ASSIGNED to COMPLETED update with a
designated manager and the full UI lifetime of one invoice. -/
theorem manager_review_task_edge_unique_witness :
    ((∃ t, Command.addTask t
          ∈ handleUpdateInvoice [uMgr] [mkInvoice "inv1" InvStatus.ASSIGNED] [] 9
              (mkInvoice "inv1" InvStatus.COMPLETED)
        ∧ t.id = "task-mgr-" ++ (mkInvoice "inv1" InvStatus.COMPLETED).id)
      ↔ ((mkInvoice "inv1" InvStatus.ASSIGNED).status ≠ InvStatus.COMPLETED
         ∧ (mkInvoice "inv1" InvStatus.COMPLETED).status = InvStatus.COMPLETED))
    ∧ completedEdgeCount
        [InvStatus.PENDING, InvStatus.ASSIGNED, InvStatus.COMPLETED, InvStatus.UPLOADED] ≤ 1 :=
  manager_review_task_edge_unique [uMgr] [mkInvoice "inv1" InvStatus.ASSIGNED] [] 9
    (mkInvoice "inv1" InvStatus.COMPLETED) (mkInvoice "inv1" InvStatus.ASSIGNED) uMgr
    (by decide) (by decide)
    [InvStatus.PENDING, InvStatus.ASSIGNED, InvStatus.COMPLETED, InvStatus.UPLOADED] (by decide)

/-- Claim C10: when no user holds the MANAGER role, an update crossing the
COMPLETED edge creates no task at all, while the invoice write and the
companion-task sync of the same update are still issued; the handler is
total, so no error is raised. -/
theorem no_manager_review_skip (users : List User) (invoices : List Invoice)
    (tasks : List Task) (now : Nat) (updatedInvoice old : Invoice) (linked : Task)
    (hnomgr : users.find? (fun u => decide (u.role = UserRole.MANAGER)) = none)
    (hold : invoices.find? (fun i => decide (i.id = updatedInvoice.id)) = some old)
    (holdst : old.status ≠ InvStatus.COMPLETED)
    (hnew : updatedInvoice.status = InvStatus.COMPLETED)
    (hlink : tasks.find? (fun t => decide (t.id = "task-" ++ updatedInvoice.id)) = some linked) :
    (∀ t, Command.addTask t ∉ handleUpdateInvoice users invoices tasks now updatedInvoice)
    ∧ Command.saveInvoice updatedInvoice
        ∈ handleUpdateInvoice users invoices tasks now updatedInvoice
    ∧ Command.updateTask { linked with
          assigneeId := strOr updatedInvoice.assigneeId linked.assigneeId,
          dueDate := strOr updatedInvoice.dueDate linked.dueDate,
          status := TaskStatus.DONE }
        ∈ handleUpdateInvoice users invoices tasks now updatedInvoice := by
  have hup : updatedInvoice.status ≠ InvStatus.UPLOADED := by
    rw [hnew]
    intro hc
    cases hc
  unfold handleUpdateInvoice
  rw [hold, hnomgr, hlink]
  dsimp only
  refine ⟨?_, ?_, ?_⟩
  · intro t ht
    simp [hnew, hup] at ht
  · simp
  · simp [hnew]

/-- Witness for C10: a concrete COMPLETED-edge update with an agent-only
user collection and a present companion task. -/
theorem no_manager_review_skip_witness :
    (∀ t, Command.addTask t
        ∉ handleUpdateInvoice [uAgent1] [mkInvoice "inv2" InvStatus.ASSIGNED]
            [mkTask "task-inv2" "agent-1" TaskStatus.IN_PROGRESS TaskType.INVOICE_PROCESSING] 11
            (mkInvoice "inv2" InvStatus.COMPLETED))
    ∧ Command.saveInvoice (mkInvoice "inv2" InvStatus.COMPLETED)
        ∈ handleUpdateInvoice [uAgent1] [mkInvoice "inv2" InvStatus.ASSIGNED]
            [mkTask "task-inv2" "agent-1" TaskStatus.IN_PROGRESS TaskType.INVOICE_PROCESSING] 11
            (mkInvoice "inv2" InvStatus.COMPLETED)
    ∧ Command.updateTask
        { mkTask "task-inv2" "agent-1" TaskStatus.IN_PROGRESS TaskType.INVOICE_PROCESSING with
            assigneeId := strOr (mkInvoice "inv2" InvStatus.COMPLETED).assigneeId
              (mkTask "task-inv2" "agent-1" TaskStatus.IN_PROGRESS TaskType.INVOICE_PROCESSING).assigneeId,
            dueDate := strOr (mkInvoice "inv2" InvStatus.COMPLETED).dueDate
              (mkTask "task-inv2" "agent-1" TaskStatus.IN_PROGRESS TaskType.INVOICE_PROCESSING).dueDate,
            status := TaskStatus.DONE }
        ∈ handleUpdateInvoice [uAgent1] [mkInvoice "inv2" InvStatus.ASSIGNED]
            [mkTask "task-inv2" "agent-1" TaskStatus.IN_PROGRESS TaskType.INVOICE_PROCESSING] 11
            (mkInvoice "inv2" InvStatus.COMPLETED) :=
  no_manager_review_skip [uAgent1] [mkInvoice "inv2" InvStatus.ASSIGNED]
    [mkTask "task-inv2" "agent-1" TaskStatus.IN_PROGRESS TaskType.INVOICE_PROCESSING] 11
    (mkInvoice "inv2" InvStatus.COMPLETED) (mkInvoice "inv2" InvStatus.ASSIGNED)
    (mkTask "task-inv2" "agent-1" TaskStatus.IN_PROGRESS TaskType.INVOICE_PROCESSING)
    (by decide) (by decide) (by decide) (by decide) (by decide)

end DQA
